import Mathlib

attribute [local semireducible] Rat.mul Rat.add Rat.sub Rat.inv Rat.ofScientific

/-!
Verification development for the SVG crop service (`src/app.py`,
`src/svg_processor.py`).

Modelling conventions (shallow embedding of the Python source):

* Python `float` values are modelled as exact rationals (`ℚ`).  All the
  arithmetic the claims are about (subtraction, multiplication, division,
  truncation to `int`) is exact on the inputs considered; IEEE rounding,
  `inf` and `nan` are outside the model.  Consequently the model of
  `float(<string>)` parses finite decimal numerals (optional sign, digits
  with underscores, fraction, exponent, surrounding blanks) and treats
  `inf`/`nan` spellings as unparseable.
* Python exceptions are modelled explicitly: a function body whose
  exceptions are swallowed by an enclosing `try`/`except` returns `Option`
  (`none` = the exception was raised and caught), while a function that can
  let an exception escape returns `Except Unit` or a `StepResult` marked
  `raised`.  Totality of the Lean definitions models "never crashes the
  interpreter"; a `raised`/`error` value models a propagating exception.
* Filesystem and network effects are oracle parameters: `raster : String →
  Option (ℕ × ℕ)` models `Image.open` (`none` = file missing or unreadable,
  `some (w, h)` = the raster's true size), `dlOk : String → Bool` models
  per-URL download success, and the parsed XML document is an
  `Option Document` (`none` = `ET.ParseError`).
* The XML element tree is modelled by the views the code actually takes of
  it: for each clip-path definition its `id` attribute and first `rect`
  child's raw attributes; for each clip-annotated element its `clip-path`
  attribute, its first descendant `image` element's raw attributes, and its
  chain of ancestors (nearest first, exactly the walk that
  `build_parent_map` plus `find_transform_for_image` performs).  Attribute
  values are kept as raw strings and parsed exactly where the Python code
  parses them.
* Python `int(x)` on a float is truncation toward zero, modelled by `pyInt`.
  Mask rasterisation (`cv2.rectangle`, `cv2.imwrite`) only produces an
  output file; it is modelled by recording the region index of each emitted
  mask.
-/

namespace SvgCrop

/-! ## Characters, whitespace splitting, and the Python `float` numeral model -/

/-- The ASCII whitespace characters recognised by Python's `str.split()` and
`str.strip()` (the unicode-only whitespace code points are outside the
model). -/
def isPySpace (c : Char) : Bool :=
  c = ' ' || c = '\t' || c = '\n' || c = '\x0d' || c = '\x0b' || c = '\x0c'

/-- Does the pattern (first argument) occur at the start of the string? -/
def listStarts : List Char → List Char → Bool
  | [], _ => true
  | _ :: _, [] => false
  | p :: ps, c :: cs => p = c && listStarts ps cs

/-- Does the pattern occur anywhere in the string (Python's `in`)? -/
def listHasSub (pat : List Char) : List Char → Bool
  | [] => listStarts pat []
  | c :: cs => listStarts pat (c :: cs) || listHasSub pat cs

/-- `str.endswith` on the underlying character lists. -/
def strEnds (s suffix : String) : Bool :=
  listStarts suffix.toList.reverse s.toList.reverse

/-- `s.replace(",", " ")`: a one-character replacement is a plain map. -/
def commaToSpace (cs : List Char) : List Char :=
  cs.map fun c => if c = ',' then ' ' else c

/-- Helper for `splitWs`: accumulates the current word (reversed). -/
def splitWsAux : List Char → List Char → List (List Char)
  | [], acc => if acc.isEmpty then [] else [acc.reverse]
  | c :: cs, acc =>
    if isPySpace c then
      if acc.isEmpty then splitWsAux cs [] else acc.reverse :: splitWsAux cs []
    else
      splitWsAux cs (c :: acc)

/-- Python `str.split()` with no argument: split on whitespace runs,
discarding empty fields. -/
def splitWs (cs : List Char) : List (List Char) :=
  splitWsAux cs []

/-- Strip leading and trailing Python whitespace (what `float(<string>)`
does before parsing the numeral). -/
def stripWs (cs : List Char) : List Char :=
  ((cs.dropWhile isPySpace).reverse.dropWhile isPySpace).reverse

/-- Consume a run of decimal digits that may contain single underscores
between digits; returns the accumulated value, the number of digits
consumed so far, and the rest of the input.  An underscore not followed by
a digit is left unconsumed (making the overall parse fail on the
leftover). -/
def digitsUCore : List Char → ℕ → ℕ → ℕ × ℕ × List Char
  | [], acc, k => (acc, k, [])
  | '_' :: rest, acc, k =>
    match rest with
    | c :: cs =>
      if c.isDigit then digitsUCore cs (acc * 10 + (c.toNat - 48)) (k + 1)
      else (acc, k, '_' :: c :: cs)
    | [] => (acc, k, ['_'])
  | c :: cs, acc, k =>
    if c.isDigit then digitsUCore cs (acc * 10 + (c.toNat - 48)) (k + 1)
    else (acc, k, c :: cs)

/-- A digit run (with underscores) that must start with a digit. -/
def digitsU (cs : List Char) : Option (ℕ × ℕ × List Char) :=
  match cs with
  | c :: _ => if c.isDigit then some (digitsUCore cs 0 0) else none
  | [] => none

/-- Optional sign, returning the sign as a rational and the rest. -/
def takeSign (cs : List Char) : ℚ × List Char :=
  match cs with
  | '+' :: r => (1, r)
  | '-' :: r => (-1, r)
  | _ => (1, cs)

/-- Parse the optional exponent part `([eE][+-]?digits)?`; returns the
exponent as an integer together with the rest of the input, or `none` if an
exponent marker is present but not followed by digits. -/
def takeExponent (cs : List Char) : Option (ℤ × List Char) :=
  match cs with
  | 'e' :: r => takeExponentDigits r
  | 'E' :: r => takeExponentDigits r
  | _ => some (0, cs)
where
  takeExponentDigits (r : List Char) : Option (ℤ × List Char) :=
    let (sgn, r1) :=
      match r with
      | '+' :: r' => ((1 : ℤ), r')
      | '-' :: r' => ((-1 : ℤ), r')
      | _ => ((1 : ℤ), r)
    match digitsU r1 with
    | some (v, _, r2) => some (sgn * v, r2)
    | none => none

/-- The model of Python `float(<string>)` restricted to finite decimal
numerals: strips surrounding whitespace, then parses
`[+-]? (digits [. digits?] | . digits) ([eE][+-]?digits)?` with single
underscores allowed between digits.  `inf`/`nan` spellings and non-ASCII
digits are outside the rational model and map to `none` (parse failure). -/
def pythonFloat (cs0 : List Char) : Option ℚ :=
  let cs := stripWs cs0
  let (sgn, cs1) := takeSign cs
  match cs1 with
  | '.' :: r =>
    match digitsU r with
    | some (fp, k, r1) => finish sgn 0 fp k r1
    | none => none
  | _ =>
    match digitsU cs1 with
    | some (ip, _, r1) =>
      match r1 with
      | '.' :: r2 =>
        match digitsU r2 with
        | some (fp, k, r3) => finish sgn ip fp k r3
        | none => finish sgn ip 0 0 r2
      | _ => finish sgn ip 0 0 r1
    | none => none
where
  finish (sgn : ℚ) (ip fp k : ℕ) (rest : List Char) : Option ℚ :=
    match takeExponent rest with
    | some (e, r2) =>
      if r2.isEmpty then
        some (sgn * ((ip : ℚ) + (fp : ℚ) / (10 : ℚ) ^ k) * (10 : ℚ) ^ e)
      else none
    | none => none

/-- `float` applied to a `String` attribute value. -/
def pyFloat (s : String) : Option ℚ :=
  pythonFloat s.toList

/-! ## Regex capture: `re.search(r"tok([^)]+)\)", s)` for a literal token

Both regexes the code uses — `matrix\(([^)]+)\)` and `url\(#([^)]+)\)` —
are a literal token followed by a nonempty capture of non-`)` characters
and a closing `)`.  `re.search` tries every start position left to right;
at a position where the literal token matches, the capture is everything up
to the first `)` afterwards and must be nonempty, else the engine moves on
to the next start position. -/

/-- Characters before the first `)`, or `none` when there is no `)`. -/
def takeUntilRParen : List Char → Option (List Char)
  | [] => none
  | c :: cs =>
    if c = ')' then some []
    else
      match takeUntilRParen cs with
      | some g => some (c :: g)
      | none => none

/-- Try the token-plus-capture match at the current position only. -/
def captureAt (tok cs : List Char) : Option (List Char) :=
  if listStarts tok cs then
    match takeUntilRParen (cs.drop tok.length) with
    | some g => if g.isEmpty then none else some g
    | none => none
  else none

/-- `re.search` for the token-plus-capture pattern: first matching start
position wins; returns the captured group. -/
def searchCapture (tok : List Char) : List Char → Option (List Char)
  | [] => none
  | c :: cs =>
    match captureAt tok (c :: cs) with
    | some g => some g
    | none => searchCapture tok cs

/-! ## Affine Transform Resolver (`parse_transform`, `parse_matrix`,
`find_transform_for_image`) -/

/-- A 6-tuple affine transform `(a, b, c, d, tx, ty)`. -/
abbrev Mat6 := ℚ × ℚ × ℚ × ℚ × ℚ × ℚ

/-- A rectangle `(x, y, w, h)` in document or local units. -/
abbrev Rect4 := ℚ × ℚ × ℚ × ℚ

/-- `re.search(r"matrix\(([^)]+)\)", s)`'s captured group. -/
def matrixToken (s : String) : Option (List Char) :=
  searchCapture "matrix(".toList s.toList

/-- `[float(p) for p in group.replace(",", " ").split()]`: `none` models a
`ValueError` raised by `float`. -/
def tokenFloats (g : List Char) : Option (List ℚ) :=
  (splitWs (commaToSpace g)).mapM pythonFloat

/-- `SVGProcessor.parse_matrix`: find a `matrix(...)` token, split its body
on commas/whitespace, convert every part with `float` — an unparseable part
raises `ValueError`, modelled by `Except.error ()` since `parse_matrix` has
no handler — and return the six numbers when there are exactly six, the
identity otherwise. -/
def parse_matrix (s : String) : Except Unit Mat6 :=
  match matrixToken s with
  | none => .ok (1, 0, 0, 1, 0, 0)
  | some g =>
    match tokenFloats g with
    | none => .error ()
    | some parts =>
      match parts with
      | [a, b, c, d, e, f] => .ok (a, b, c, d, e, f)
      | _ => .ok (1, 0, 0, 1, 0, 0)

/-- `SVGProcessor.parse_transform`: same token scan, but returns only the
translation `(parts[4], parts[5])`, with `(0, 0)` as the fallback. -/
def parse_transform (s : String) : Except Unit (ℚ × ℚ) :=
  match matrixToken s with
  | none => .ok (0, 0)
  | some g =>
    match tokenFloats g with
    | none => .error ()
    | some parts =>
      match parts with
      | [_, _, _, _, e, f] => .ok (e, f)
      | _ => .ok (0, 0)

/-- An XML element as the resolver sees it: its (namespace-expanded) tag
and its attribute dictionary. -/
structure Element where
  tag : String
  attrs : List (String × String)
deriving DecidableEq

/-- `el.get(key, default)` on the attribute dictionary. -/
def attrD (e : Element) (k v : String) : String :=
  match e.attrs.find? (fun p => p.1 = k) with
  | some p => p.2
  | none => v

/-- `SVGProcessor.find_transform_for_image`, expressed on the element's
ancestor chain (nearest ancestor first — exactly the order the `while` loop
visits parents through `parent_map`): the first ancestor whose tag ends in
`}g` and whose `transform` attribute is nonempty and mentions `matrix` has
its transform parsed and returned; with no such ancestor the identity is
returned. -/
def find_transform_for_image : List Element → Except Unit Mat6
  | [] => .ok (1, 0, 0, 1, 0, 0)
  | p :: rest =>
    if strEnds p.tag "\x7dg" then
      let t := attrD p "transform" ""
      if t ≠ "" ∧ listHasSub "matrix".toList t.toList then parse_matrix t
      else find_transform_for_image rest
    else find_transform_for_image rest

/-- The spec's description of a qualifying ancestor (§4.2): a grouping
element carrying a nonempty `transform` attribute containing the token
`matrix`. -/
def qualifiesG (e : Element) : Bool :=
  strEnds e.tag "\x7dg" &&
    (decide (attrD e "transform" "" ≠ "") &&
      listHasSub "matrix".toList (attrD e "transform" "").toList)

/-- `resolveForImage` as worded by the spec: the nearest qualifying
ancestor alone is consulted and its transform parsed; identity if there is
none. -/
def resolveForImageSpec (chain : List Element) : Except Unit Mat6 :=
  match chain.find? qualifiesG with
  | some p => parse_matrix (attrD p "transform" "")
  | none => .ok (1, 0, 0, 1, 0, 0)

/-! ## Region Mapper and Crop Executor (`precise_crop_image`) -/

/-- Python `int()` applied to a float: truncation toward zero. -/
def pyInt (q : ℚ) : ℤ :=
  if q < 0 then ⌈q⌉ else ⌊q⌋

/-- An integer pixel box `(x1, y1, x2, y2)`. -/
abbrev Box4 := ℤ × ℤ × ℤ × ℤ

/-- Step 1 of the crop computation: bring the document-space clip rectangle
into the image group's local space by inverting the scale/translate parts
of the transform (`group_clip_x/y/w/h` in the source; `b` and `c` are
ignored by the code). -/
def localRect (clip : Rect4) (m : Mat6) : Rect4 :=
  match clip, m with
  | (cx, cy, cw, ch), (a, _, _, d, tx, ty) =>
    ((cx - tx) / a, (cy - ty) / d, cw / a, ch / d)

/-- Step 3's scale correction `(scale_x, scale_y) = (orig_width /
img_width, orig_height / img_height)`. -/
def pixelScale (origW origH : ℕ) (iw ih : ℚ) : ℚ × ℚ :=
  ((origW : ℚ) / iw, (origH : ℚ) / ih)

/-- Steps 2–3: subtract the image's placement offset and scale to raster
pixels (`final_x/y/w/h` in the source). -/
def pixelRect (loc : Rect4) (ix iy : ℚ) (s : ℚ × ℚ) : Rect4 :=
  match loc, s with
  | (gx, gy, gw, gh), (sx, sy) =>
    ((gx - ix) * sx, (gy - iy) * sy, gw * sx, gh * sy)

/-- Step 4: truncate and clamp to the raster bounds, giving
`(x1, y1, x2, y2)`. -/
def clampBox (origW origH : ℕ) (p : Rect4) : Box4 :=
  match p with
  | (fx, fy, fw, fh) =>
    (max 0 (pyInt fx), max 0 (pyInt fy),
      min (origW : ℤ) (pyInt (fx + fw)), min (origH : ℤ) (pyInt (fy + fh)))

/-- The pure coordinate computation inside `precise_crop_image`, from
opening the raster onwards: `none` models both a caught
`ZeroDivisionError` (`a`, `d`, `img_width` or `img_height` equal to zero —
every division in the body is unguarded but the whole body sits in a
`try`/`except` returning `False`) and the `x2 <= x1 or y2 <= y1` invalid
box check; `some` is the box handed to `img.crop`. -/
def precise_crop_box (clip : Rect4) (m : Mat6) (attrs : Rect4)
    (origW origH : ℕ) : Option Box4 :=
  match m, attrs with
  | (a, b, c, d, tx, ty), (ix, iy, iw, ih) =>
    if a = 0 ∨ d = 0 ∨ iw = 0 ∨ ih = 0 then none
    else
      let loc := localRect clip (a, b, c, d, tx, ty)
      let p := pixelRect loc ix iy (pixelScale origW origH iw ih)
      match clampBox origW origH p with
      | (x1, y1, x2, y2) =>
        if x2 ≤ x1 ∨ y2 ≤ y1 then none else some (x1, y1, x2, y2)

/-- `SVGProcessor.precise_crop_image` as seen by its caller: `False` when
the raster file is missing/unreadable or the region is dropped, `True` when
a crop file is emitted.  The surrounding `try`/`except` means the function
never lets an exception escape, which the totality of this definition
models. -/
def precise_crop_image (raster : String → Option (ℕ × ℕ)) (fname : String)
    (clip : Rect4) (m : Mat6) (attrs : Rect4) : Bool :=
  match raster fname with
  | none => false
  | some (w, h) => (precise_crop_box clip m attrs w h).isSome

/-- The claim C2's notion of the local rectangle lying entirely outside the
image placement box `[ix, ix + iw] × [iy, iy + ih]`. -/
def localOutside (loc : Rect4) (ix iy iw ih : ℚ) : Bool :=
  match loc with
  | (gx, gy, gw, gh) =>
    decide (gx + gw ≤ ix) || decide (ix + iw ≤ gx) ||
      decide (gy + gh ≤ iy) || decide (iy + ih ≤ gy)

/-! ## Clip Registry (`extract_masks_and_crop_images`, lines 295–314) -/

/-- The raw attributes of a `clipPath`'s first `rect` child. -/
structure RectEl where
  xA : Option String
  yA : Option String
  wA : Option String
  hA : Option String
  trA : Option String
deriving DecidableEq

/-- A `clipPath` definition: its `id` attribute and first `rect` child, if
any. -/
structure ClipDef where
  idA : Option String
  rect : Option RectEl
deriving DecidableEq

/-- `float(el.get(key, 0))`: an absent attribute defaults to `0`, a present
one must parse. -/
def floatAttrDefault (o : Option String) : Option ℚ :=
  match o with
  | none => some 0
  | some s => pyFloat s

/-- `float(el.get(key))`: an absent attribute is `None` and `float(None)`
raises `TypeError`; a present one must parse. -/
def floatAttrReq (o : Option String) : Option ℚ :=
  match o with
  | none => none
  | some s => pyFloat s

/-- One registry entry: requires a truthy `id` and a `rect` child, parses
`x`/`y` (default 0) and the required `width`/`height`, adds the `rect`'s
own translation.  `none` models the `except (ValueError, TypeError):
continue` skip (which also swallows a `ValueError` escaping
`parse_transform`). -/
def clipDefEntry (cd : ClipDef) : Option (String × Rect4) :=
  match cd.idA, cd.rect with
  | some i, some r =>
    if i = "" then none
    else
      match floatAttrDefault r.xA, floatAttrDefault r.yA,
          floatAttrReq r.wA, floatAttrReq r.hA with
      | some x, some y, some w, some h =>
        match parse_transform (r.trA.getD "") with
        | .ok (tx, ty) => some (i, (x + tx, y + ty, w, h))
        | .error _ => none
      | _, _, _, _ => none
  | _, _ => none

/-- The `clip_paths` dict built over the document's `clipPath` definitions
in document order; a later entry with the same id overwrites an earlier
one, which `regLookup`'s last-match semantics reproduces. -/
def buildRegistry (defs : List ClipDef) : List (String × Rect4) :=
  defs.foldl
    (fun acc cd =>
      match clipDefEntry cd with
      | some e => acc ++ [e]
      | none => acc)
    []

/-- Dict lookup with overwrite semantics: the last entry for the id wins. -/
def regLookup (reg : List (String × Rect4)) (i : String) : Option Rect4 :=
  reg.foldl (fun acc e => if e.1 = i then some e.2 else acc) none

/-- A present attribute value that `float` rejects. -/
def nonNumAttr : Option String → Bool
  | none => false
  | some s => (pyFloat s).isNone

/-- The malformation condition of claim C6: `width` or `height` missing, or
a present `x`/`y`/`width`/`height` attribute that is not numeric. -/
def rectMalformed (r : RectEl) : Bool :=
  r.wA.isNone || r.hA.isNone || nonNumAttr r.xA || nonNumAttr r.yA ||
    nonNumAttr r.wA || nonNumAttr r.hA

/-! ## Per-region loop (`extract_masks_and_crop_images`, lines 316–360) -/

/-- The first descendant `image` element of a clip-annotated element:
`xlink:href` (defaulted to `""`) and the raw placement attributes. -/
structure ImgEl where
  href : String
  xA : Option String
  yA : Option String
  wA : Option String
  hA : Option String
deriving DecidableEq

/-- A clip-annotated element: its `clip-path` attribute, first descendant
`image` (if any), and ancestor chain (nearest first). -/
structure ClipEl where
  clipAttr : String
  image : Option ImgEl
  ancestors : List Element
deriving DecidableEq

/-- `re.search(r"url\(#([^)]+)\)", s)`'s captured group: the referenced
clip-path id. -/
def urlIdToken (s : String) : Option (List Char) :=
  searchCapture "url(#".toList s.toList

/-- The image placement box `float(get("x", 0)) ...` for all four
attributes; `none` models an uncaught `ValueError` (the loop body has no
handler). -/
def imgAttrRect (img : ImgEl) : Option Rect4 :=
  match floatAttrDefault img.xA, floatAttrDefault img.yA,
      floatAttrDefault img.wA, floatAttrDefault img.hA with
  | some x, some y, some w, some h => some (x, y, w, h)
  | _, _, _, _ => none

/-- What the loop has produced so far: the running region counter
(`mask_count`), the region indices of emitted mask files, and of emitted
crop files. -/
structure LoopState where
  maskCount : ℕ
  masks : List ℕ
  crops : List ℕ
deriving DecidableEq

/-- Loop outcome: `ok` = control reached the end normally; `raised` = an
exception escaped the loop body, with the outputs written up to that
point. -/
inductive StepResult where
  | ok (st : LoopState)
  | raised (st : LoopState)
deriving DecidableEq

/-- One iteration of the `for el in elements_with_clip_path` body: extract
`url(#id)`, look the id up in the registry, write the mask, find the
image, parse its attributes (can raise), resolve the ancestor transform
(can raise through `parse_matrix`), attempt the crop (never raises), and
advance `mask_count`. -/
def stepClipEl (reg : List (String × Rect4)) (raster : String → Option (ℕ × ℕ))
    (st : LoopState) (el : ClipEl) : StepResult :=
  match urlIdToken el.clipAttr with
  | none => .ok st
  | some cid =>
    match regLookup reg (String.mk cid) with
    | none => .ok st
    | some clip =>
      let st1 : LoopState := { st with masks := st.masks ++ [st.maskCount] }
      match el.image with
      | none => .ok { st1 with maskCount := st1.maskCount + 1 }
      | some img =>
        if img.href = "" then .ok { st1 with maskCount := st1.maskCount + 1 }
        else
          match imgAttrRect img with
          | none => .raised st1
          | some attrs =>
            match find_transform_for_image el.ancestors with
            | .error _ => .raised st1
            | .ok m =>
              let cropOk := precise_crop_image raster img.href clip m attrs
              let st2 :=
                if cropOk then { st1 with crops := st1.crops ++ [st1.maskCount] }
                else st1
              .ok { st2 with maskCount := st2.maskCount + 1 }

/-- The whole loop; an escaping exception stops it. -/
def runLoop (reg : List (String × Rect4)) (raster : String → Option (ℕ × ℕ)) :
    List ClipEl → LoopState → StepResult
  | [], st => .ok st
  | el :: els, st =>
    match stepClipEl reg raster st el with
    | .ok st' => runLoop reg raster els st'
    | .raised st' => .raised st'

/-! ## Document model and run-level flow (`process_svg_async`) -/

/-- The views `extract_masks_and_crop_images` and `extract_image_urls` take
of the parsed document. -/
structure Document where
  viewBox : Option String
  widthA : Option String
  heightA : Option String
  imageHrefs : List String
  clipDefs : List ClipDef
  clipEls : List ClipEl

/-- The canvas size computation (lines 286–292): a truthy `viewBox` is
split on whitespace and unpacked into four floats (anything else raises),
otherwise `width`/`height` attributes defaulting to `1000`; `none` models
an uncaught exception. -/
def svgDims (d : Document) : Option (ℤ × ℤ) :=
  match d.viewBox with
  | some vb =>
    if vb = "" then svgDimsFallback d
    else
      match (splitWs vb.toList).mapM pythonFloat with
      | some [_, _, w, h] => some (pyInt h, pyInt w)
      | _ => none
  | none => svgDimsFallback d
where
  svgDimsFallback (d : Document) : Option (ℤ × ℤ) :=
    match
      (match d.widthA with
        | none => some (1000 : ℚ)
        | some s => pyFloat s),
      (match d.heightA with
        | none => some (1000 : ℚ)
        | some s => pyFloat s) with
    | some w, some h => some (pyInt h, pyInt w)
    | _, _ => none

/-- `SVGProcessor.extract_masks_and_crop_images` on an already parsed
document: canvas dimensions first (a failure there is an uncaught
exception), then the registry, then the per-element loop. -/
def extract_masks_and_crop_images (raster : String → Option (ℕ × ℕ))
    (d : Document) : StepResult :=
  match svgDims d with
  | none => .raised ⟨0, [], []⟩
  | some _ => runLoop (buildRegistry d.clipDefs) raster d.clipEls ⟨0, [], []⟩

/-- `SVGProcessor.extract_image_urls`: empty on a parse failure, else every
image `href` that starts with `http`. -/
def extract_image_urls (doc : Option Document) : List String :=
  match doc with
  | none => []
  | some d => d.imageHrefs.filter fun u => listStarts "http".toList u.toList

/-- The overall result of `process_svg_async` as its caller sees it. -/
inductive RunResult where
  | ok (regions images : ℕ)
  | err (msg : String)
deriving DecidableEq

/-- `SVGProcessor.process_svg_async` with its I/O as oracles: `svgOk` =
did the SVG download succeed, `doc` = the parse outcome, `dlOk` = per-URL
image download success, `raster` = the local raster files.  The final
`except Exception` turns an exception escaping the region loop into a
failure dictionary, modelled by the fixed message `"unhandled exception"`
(the real message is `str(e)`). -/
def process_svg_async (svgOk : Bool) (doc : Option Document)
    (dlOk : String → Bool) (raster : String → Option (ℕ × ℕ)) : RunResult :=
  if svgOk then
    match doc with
    | none => .err "No images found in SVG"
    | some d =>
      let urls := extract_image_urls (some d)
      if urls.isEmpty then .err "No images found in SVG"
      else if (urls.filter dlOk).length = 0 then
        .err "Failed to download any images"
      else
        match extract_masks_and_crop_images raster d with
        | .raised _ => .err "unhandled exception"
        | .ok st =>
          if st.maskCount = 0 then .err "No regions processed"
          else .ok st.maskCount (urls.filter dlOk).length
  else .err "Failed to download SVG"

/-- Does the loop body raise on this element?  Raising depends only on the
element and the registry: a resolvable clip id together with an image whose
placement attributes fail to parse or whose ancestor transform parse
raises. -/
def elStepRaises (reg : List (String × Rect4)) (el : ClipEl) : Bool :=
  match urlIdToken el.clipAttr with
  | none => false
  | some cid =>
    match regLookup reg (String.mk cid) with
    | none => false
    | some _ =>
      match el.image with
      | none => false
      | some img =>
        if img.href = "" then false
        else
          (imgAttrRect img).isNone ||
            (match find_transform_for_image el.ancestors with
              | .error _ => true
              | .ok _ => false)

/-- A document none of whose clip-annotated elements raises, and whose
canvas dimensions parse. -/
def docClean (d : Document) : Bool :=
  (svgDims d).isSome &&
    d.clipEls.all fun el => !elStepRaises (buildRegistry d.clipDefs) el

/-! ## API layer (`app.py`) -/

/-- The request model: `output_format` is a plain string field with default
`"png"`; the pydantic model carries no validator for it, so any string
value is accepted. -/
structure SVGProcessRequest where
  svg_url : String
  output_format : String := "png"

/-- The value `crop_svg` hands to the processor: `request.output_format`
unchanged (app.py line 79). -/
def crop_svg_output_format (r : SVGProcessRequest) : String :=
  r.output_format

/-- The output-encoding selection inside `precise_crop_image` (line 257):
`"png"` stays `png`, anything else is saved as `jpeg`. -/
def file_ext (output_format : String) : String :=
  if output_format = "png" then "png" else "jpeg"

/-! ## Concrete fixtures for witnesses and counterexamples -/

/-- The namespace-expanded tag of an SVG group element. -/
def svgGTag : String := "\x7bhttp://www.w3.org/2000/svg\x7dg"

/-- A group ancestor carrying a zero-scale matrix transform. -/
def gZeroEl : Element := ⟨svgGTag, [("transform", "matrix(0,0,0,0,0,0)")]⟩

/-- An image with numeric placement attributes. -/
def goodImg : ImgEl := ⟨"img.png", some "1", some "1", some "2", some "2"⟩

/-- An image whose `x` attribute is not numeric. -/
def badAttrImg : ImgEl := ⟨"img.png", some "abc", none, some "2", some "2"⟩

/-- A clip-annotated element with numeric image attributes below a
zero-scale group. -/
def zeroScaleEl : ClipEl := ⟨"url(#r0)", some goodImg, [gZeroEl]⟩

/-- A clip-annotated element whose image has a non-numeric attribute. -/
def badAttrEl : ClipEl := ⟨"url(#r0)", some badAttrImg, [gZeroEl]⟩

/-- A clip-annotated element that processes cleanly (identity transform,
numeric attributes). -/
def goodEl : ClipEl := ⟨"url(#r0)", some goodImg, []⟩

/-- A well-formed clip-path definition with id `r0`. -/
def demoClipDef : ClipDef :=
  ⟨some "r0", some ⟨some "0", some "0", some "5", some "5", none⟩⟩

/-- A parseable document whose first clip element raises (non-numeric image
attribute) before its second, clean element is reached. -/
def demoDoc : Document :=
  ⟨some "0 0 10 10", none, none, ["http://example.com/img.png"],
    [demoClipDef], [badAttrEl, goodEl]⟩

/-- A parseable document with one clean clip element. -/
def cleanDoc : Document :=
  ⟨some "0 0 10 10", none, none, ["http://example.com/img.png"],
    [demoClipDef], [goodEl]⟩

/-- A parseable document with images but no clip-annotated element. -/
def emptyRegionsDoc : Document :=
  ⟨some "0 0 10 10", none, none, ["http://example.com/img.png"], [], []⟩

/-! ## Helper lemmas -/

theorem pyInt_of_nonneg {q : ℚ} (h : 0 ≤ q) : pyInt q = ⌊q⌋ := by
  simp [pyInt, not_lt.mpr h]

theorem pyInt_nonpos {q : ℚ} (h : q ≤ 0) : pyInt q ≤ 0 := by
  unfold pyInt
  split
  · exact Int.ceil_le.mpr (by exact_mod_cast h)
  · exact Int.floor_le_floor h |>.trans (by simp)

theorem le_pyInt {n : ℤ} {q : ℚ} (hn : 0 ≤ n) (h : (n : ℚ) ≤ q) :
    n ≤ pyInt q := by
  have hq : (0 : ℚ) ≤ q := le_trans (by exact_mod_cast hn) h
  rw [pyInt_of_nonneg hq]
  exact Int.le_floor.mpr h

theorem pyInt_intCast (n : ℤ) : pyInt (n : ℚ) = n := by
  unfold pyInt
  split <;> simp

/-- C1: the Region Mapper on the spec's concrete scenario — transform
`(0.5, 0, 0, 0.5, 100, 50)`, placement `(0, 0, 200, 200)`, raster
`400×400`, document-space clip `(150, 100, 50, 50)` — produces local
rectangle `(100, 100, 100, 100)`, pixel scale `2.0` on both axes,
unclamped pixel rectangle `(200, 200, 200, 200)`, and final crop box
`(200, 200, 400, 400)`. -/
theorem c1_region_mapper_scenario :
    localRect (150, 100, 50, 50) (0.5, 0, 0, 0.5, 100, 50) =
      (100, 100, 100, 100) ∧
    pixelScale 400 400 200 200 = (2, 2) ∧
    pixelRect (100, 100, 100, 100) 0 0 (2, 2) = (200, 200, 200, 200) ∧
    precise_crop_box (150, 100, 50, 50) (0.5, 0, 0, 0.5, 100, 50)
      (0, 0, 200, 200) 400 400 = some (200, 200, 400, 400) := by
  refine ⟨by decide, by decide, by decide, by decide⟩

/-- C2: for any clip rectangle, transform with nonzero `a`, `d`, and
(positive-size) placement box, the region is valid exactly when
`x1 < x2 ∧ y1 < y2` after clamping; and a clip rectangle whose mapped
local rectangle lies entirely outside the placement box is dropped (the
crop step returns its skip result for every raster, never an
exception — the crop functions are total). -/
theorem c2_validity_iff_and_outside_dropped
    (cx cy cw ch a b c d tx ty ix iy iw ih : ℚ) (origW origH : ℕ)
    (ha : a ≠ 0) (hd : d ≠ 0) (hiw : 0 < iw) (hih : 0 < ih) :
    (∀ x1 y1 x2 y2 : ℤ,
      clampBox origW origH
          (pixelRect (localRect (cx, cy, cw, ch) (a, b, c, d, tx, ty)) ix iy
            (pixelScale origW origH iw ih)) = (x1, y1, x2, y2) →
      ((precise_crop_box (cx, cy, cw, ch) (a, b, c, d, tx, ty)
          (ix, iy, iw, ih) origW origH).isSome ↔ x1 < x2 ∧ y1 < y2)) ∧
    (localOutside (localRect (cx, cy, cw, ch) (a, b, c, d, tx, ty))
        ix iy iw ih = true →
      (∀ W H : ℕ,
        precise_crop_box (cx, cy, cw, ch) (a, b, c, d, tx, ty)
          (ix, iy, iw, ih) W H = none) ∧
      ∀ raster fname,
        precise_crop_image raster fname (cx, cy, cw, ch)
          (a, b, c, d, tx, ty) (ix, iy, iw, ih) = false) := by
  have hguard : ¬(a = 0 ∨ d = 0 ∨ iw = 0 ∨ ih = 0) := by
    push_neg
    exact ⟨ha, hd, hiw.ne', hih.ne'⟩
  have hbox : ∀ W H : ℕ,
      precise_crop_box (cx, cy, cw, ch) (a, b, c, d, tx, ty)
          (ix, iy, iw, ih) W H =
        if min (W : ℤ) (pyInt (((cx - tx) / a - ix) * ((W : ℚ) / iw) + cw / a * ((W : ℚ) / iw))) ≤
              max 0 (pyInt (((cx - tx) / a - ix) * ((W : ℚ) / iw))) ∨
            min (H : ℤ) (pyInt (((cy - ty) / d - iy) * ((H : ℚ) / ih) + ch / d * ((H : ℚ) / ih))) ≤
              max 0 (pyInt (((cy - ty) / d - iy) * ((H : ℚ) / ih))) then none
        else some
          (max 0 (pyInt (((cx - tx) / a - ix) * ((W : ℚ) / iw))),
            max 0 (pyInt (((cy - ty) / d - iy) * ((H : ℚ) / ih))),
            min (W : ℤ) (pyInt (((cx - tx) / a - ix) * ((W : ℚ) / iw) + cw / a * ((W : ℚ) / iw))),
            min (H : ℤ) (pyInt (((cy - ty) / d - iy) * ((H : ℚ) / ih) + ch / d * ((H : ℚ) / ih)))) := by
    intro W H
    simp only [precise_crop_box, localRect, pixelScale, pixelRect, clampBox, hguard, if_false]
  constructor
  · intro x1 y1 x2 y2 h
    simp only [localRect, pixelScale, pixelRect, clampBox, Prod.mk.injEq] at h
    obtain ⟨h1, h2, h3, h4⟩ := h
    rw [hbox origW origH]
    subst h1 h2 h3 h4
    split_ifs with hc
    · simp only [Option.isSome_none, Bool.false_eq_true, false_iff]
      omega
    · simp only [Option.isSome_some, true_iff]
      omega
  · intro hout
    have key : ∀ W H : ℕ,
        precise_crop_box (cx, cy, cw, ch) (a, b, c, d, tx, ty)
          (ix, iy, iw, ih) W H = none := by
      intro W H
      rw [hbox W H]
      simp only [localOutside, localRect, Bool.or_eq_true, decide_eq_true_eq] at hout
      have hsxW : (0 : ℚ) ≤ (W : ℚ) / iw := div_nonneg (by positivity) hiw.le
      have hsyH : (0 : ℚ) ≤ (H : ℚ) / ih := div_nonneg (by positivity) hih.le
      rw [if_pos]
      rcases hout with ((h1 | h2) | h3) | h4
      · left
        have hsum : ((cx - tx) / a - ix) * ((W : ℚ) / iw) + cw / a * ((W : ℚ) / iw)
            = ((cx - tx) / a + cw / a - ix) * ((W : ℚ) / iw) := by ring
        have hnp : ((cx - tx) / a + cw / a - ix) ≤ 0 := by linarith
        have : ((cx - tx) / a - ix) * ((W : ℚ) / iw) + cw / a * ((W : ℚ) / iw) ≤ 0 := by
          rw [hsum]
          exact mul_nonpos_of_nonpos_of_nonneg hnp hsxW
        calc min (W : ℤ) (pyInt _) ≤ pyInt _ := min_le_right _ _
          _ ≤ 0 := pyInt_nonpos this
          _ ≤ max 0 _ := le_max_left _ _
      · left
        have h3' : iw ≤ (cx - tx) / a - ix := by linarith
        have hW : iw * ((W : ℚ) / iw) = (W : ℚ) := by field_simp
        have hpx : (W : ℚ) ≤ ((cx - tx) / a - ix) * ((W : ℚ) / iw) := by
          calc (W : ℚ) = iw * ((W : ℚ) / iw) := hW.symm
            _ ≤ ((cx - tx) / a - ix) * ((W : ℚ) / iw) :=
              mul_le_mul_of_nonneg_right h3' hsxW
        have hWfloor : (W : ℤ) ≤ pyInt (((cx - tx) / a - ix) * ((W : ℚ) / iw)) :=
          le_pyInt (Int.ofNat_nonneg W) (by exact_mod_cast hpx)
        calc min (W : ℤ) (pyInt _) ≤ (W : ℤ) := min_le_left _ _
          _ ≤ pyInt (((cx - tx) / a - ix) * ((W : ℚ) / iw)) := hWfloor
          _ ≤ max 0 _ := le_max_right _ _
      · right
        have hsum : ((cy - ty) / d - iy) * ((H : ℚ) / ih) + ch / d * ((H : ℚ) / ih)
            = ((cy - ty) / d + ch / d - iy) * ((H : ℚ) / ih) := by ring
        have hnp : ((cy - ty) / d + ch / d - iy) ≤ 0 := by linarith
        have : ((cy - ty) / d - iy) * ((H : ℚ) / ih) + ch / d * ((H : ℚ) / ih) ≤ 0 := by
          rw [hsum]
          exact mul_nonpos_of_nonpos_of_nonneg hnp hsyH
        calc min (H : ℤ) (pyInt _) ≤ pyInt _ := min_le_right _ _
          _ ≤ 0 := pyInt_nonpos this
          _ ≤ max 0 _ := le_max_left _ _
      · right
        have h3' : ih ≤ (cy - ty) / d - iy := by linarith
        have hH : ih * ((H : ℚ) / ih) = (H : ℚ) := by field_simp
        have hpy : (H : ℚ) ≤ ((cy - ty) / d - iy) * ((H : ℚ) / ih) := by
          calc (H : ℚ) = ih * ((H : ℚ) / ih) := hH.symm
            _ ≤ ((cy - ty) / d - iy) * ((H : ℚ) / ih) :=
              mul_le_mul_of_nonneg_right h3' hsyH
        have hHfloor : (H : ℤ) ≤ pyInt (((cy - ty) / d - iy) * ((H : ℚ) / ih)) :=
          le_pyInt (Int.ofNat_nonneg H) (by exact_mod_cast hpy)
        calc min (H : ℤ) (pyInt _) ≤ (H : ℤ) := min_le_left _ _
          _ ≤ pyInt (((cy - ty) / d - iy) * ((H : ℚ) / ih)) := hHfloor
          _ ≤ max 0 _ := le_max_right _ _
    refine ⟨key, ?_⟩
    intro raster fname
    unfold precise_crop_image
    cases hr : raster fname with
    | none => rfl
    | some wh =>
      obtain ⟨w, h⟩ := wh
      simp only [key, Option.isSome_none]

/-- Witness for C2 at a concrete input: a clip rectangle mapped wholly to
the right of the placement box is dropped for a 400×400 raster, and the
crop step reports the skip. -/
theorem c2_validity_witness :
    precise_crop_box (500, 500, 10, 10) (1, 0, 0, 1, 0, 0) (0, 0, 200, 200)
        400 400 = none ∧
      precise_crop_image (fun _ => some (400, 400)) "photo.png"
        (500, 500, 10, 10) (1, 0, 0, 1, 0, 0) (0, 0, 200, 200) = false := by
  have h := c2_validity_iff_and_outside_dropped 500 500 10 10 1 0 0 1 0 0 0 0
    200 200 400 400 (by norm_num) (by norm_num) (by norm_num) (by norm_num)
  exact ⟨(h.2 (by decide)).1 400 400, (h.2 (by decide)).2 _ _⟩

/-- C10: whenever the crop step proceeds to cut pixels (the box is not
dropped), the box satisfies `0 ≤ x1 < x2 ≤ rw` and `0 ≤ y1 < y2 ≤ rh` for
the opened raster's true size `rw × rh`, so `img.crop` always receives a
non-empty box inside the raster bounds. -/
theorem c10_crop_box_within_raster (clip : Rect4) (m : Mat6) (attrs : Rect4)
    (origW origH : ℕ) (x1 y1 x2 y2 : ℤ)
    (h : precise_crop_box clip m attrs origW origH = some (x1, y1, x2, y2)) :
    0 ≤ x1 ∧ x1 < x2 ∧ x2 ≤ (origW : ℤ) ∧ 0 ≤ y1 ∧ y1 < y2 ∧ y2 ≤ (origH : ℤ) := by
  obtain ⟨a, b, c, d, tx, ty⟩ := m
  obtain ⟨ix, iy, iw, ih⟩ := attrs
  obtain ⟨cx, cy, cw, ch⟩ := clip
  simp only [precise_crop_box, localRect, pixelScale, pixelRect, clampBox] at h
  split at h
  · exact absurd h (by simp)
  · split at h
    · exact absurd h (by simp)
    · rename_i hvalid
      push_neg at hvalid
      obtain ⟨hx, hy⟩ := hvalid
      simp only [Option.some.injEq, Prod.mk.injEq] at h
      obtain ⟨e1, e2, e3, e4⟩ := h
      subst e1 e2 e3 e4
      exact ⟨le_max_left _ _, hx, min_le_left _ _, le_max_left _ _, hy,
        min_le_left _ _⟩

/-- Witness for C10 on the concrete scenario box `(200, 200, 400, 400)`
against a 400×400 raster. -/
theorem c10_crop_box_witness :
    0 ≤ (200 : ℤ) ∧ (200 : ℤ) < 400 ∧ (400 : ℤ) ≤ ((400 : ℕ) : ℤ) ∧
      0 ≤ (200 : ℤ) ∧ (200 : ℤ) < 400 ∧ (400 : ℤ) ≤ ((400 : ℕ) : ℤ) :=
  c10_crop_box_within_raster (150, 100, 50, 50) (0.5, 0, 0, 0.5, 100, 50)
    (0, 0, 200, 200) 400 400 200 200 400 400 (by decide)

/-- C7 fails as stated: with the identity transform, placement `(0, 0, 4,
4)` and true raster size 4×4, the clip rectangle `(-1, 0, 2, 2)` does not
produce the pixel box `(cx, cy, cx+cw, cy+ch) = (-1, 0, 1, 2)` — the
clamping `max(0, ...)` moves `x1` to `0`, giving `(0, 0, 1, 2)`. -/
theorem c7_identity_counterexample :
    precise_crop_box (-1, 0, 2, 2) (1, 0, 0, 1, 0, 0) (0, 0, 4, 4) 4 4 =
        some (0, 0, 1, 2) ∧
      precise_crop_box (-1, 0, 2, 2) (1, 0, 0, 1, 0, 0) (0, 0, 4, 4) 4 4 ≠
        some (-1, 0, 1, 2) := by
  exact ⟨by decide, by decide⟩

/-- C7 amended: under the identity transform with `iw = rw`, `ih = rh`,
`ix = iy = 0`, the pixel box equals the document-space clip rectangle
provided that rectangle has integer corners, positive size, and lies
inside `[0, rw] × [0, rh]` (otherwise truncation or clamping changes the
numbers, as the counterexample shows). -/
theorem c7_identity_pixel_box (cx cy cw ch : ℤ) (rW rH : ℕ)
    (h1 : 0 ≤ cx) (h2 : 0 ≤ cy) (h3 : 0 < cw) (h4 : 0 < ch)
    (h5 : cx + cw ≤ (rW : ℤ)) (h6 : cy + ch ≤ (rH : ℤ))
    (h7 : 0 < rW) (h8 : 0 < rH) :
    precise_crop_box ((cx : ℚ), (cy : ℚ), (cw : ℚ), (ch : ℚ)) (1, 0, 0, 1, 0, 0)
        (0, 0, (rW : ℚ), (rH : ℚ)) rW rH =
      some (cx, cy, cx + cw, cy + ch) := by
  have hrW : ((rW : ℕ) : ℚ) ≠ 0 := Nat.cast_ne_zero.mpr h7.ne'
  have hrH : ((rH : ℕ) : ℚ) ≠ 0 := Nat.cast_ne_zero.mpr h8.ne'
  have hguard : ¬((1 : ℚ) = 0 ∨ (1 : ℚ) = 0 ∨ ((rW : ℕ) : ℚ) = 0 ∨ ((rH : ℕ) : ℚ) = 0) := by
    push_neg
    exact ⟨one_ne_zero, one_ne_zero, hrW, hrH⟩
  simp only [precise_crop_box, localRect, pixelScale, pixelRect, clampBox,
    sub_zero, div_one, div_self hrW, div_self hrH, mul_one, hguard, if_false]
  rw [← Int.cast_add, ← Int.cast_add, pyInt_intCast, pyInt_intCast,
    pyInt_intCast, pyInt_intCast]
  rw [max_eq_right h1, max_eq_right h2, min_eq_right h5, min_eq_right h6]
  rw [if_neg]
  push_neg
  omega

/-- Witness for the amended C7 at clip `(1, 1, 2, 2)` on a 4×4 raster. -/
theorem c7_identity_witness :
    precise_crop_box (1, 1, 2, 2) (1, 0, 0, 1, 0, 0) (0, 0, 4, 4) 4 4 =
      some (1, 1, 3, 3) := by
  simpa using c7_identity_pixel_box 1 1 2 2 4 4 (by decide) (by decide)
    (by decide) (by decide) (by decide) (by decide) (by decide) (by decide)

/-- C3 fails as stated: on `"matrix(abc)"` the transform parser does not
degrade to the identity — the unguarded `float("abc")` raises `ValueError`
out of `parse_matrix`. -/
theorem c3_nonnumeric_counterexample :
    parse_matrix "matrix(abc)" = .error () ∧
      parse_matrix "matrix(abc)" ≠ .ok (1, 0, 0, 1, 0, 0) := by
  have h : parse_matrix "matrix(abc)" = .error () := rfl
  refine ⟨h, ?_⟩
  rw [h]
  exact fun hh => Except.noConfusion hh

/-- C3 amended: the transform parser returns the identity when the string
has no `matrix(...)` token or when the token's parts are all numeric but
not six in number; it returns the six numbers when there are exactly six
numeric parts; but when any part is non-numeric it raises `ValueError`
(`Except.error`) instead of degrading to the identity. -/
theorem c3_parse_matrix_cases (s : String) :
    (matrixToken s = none → parse_matrix s = .ok (1, 0, 0, 1, 0, 0)) ∧
    (∀ g, matrixToken s = some g →
      (tokenFloats g = none → parse_matrix s = .error ()) ∧
      (∀ ps, tokenFloats g = some ps →
        (ps.length ≠ 6 → parse_matrix s = .ok (1, 0, 0, 1, 0, 0)) ∧
        (∀ a b c d e f, ps = [a, b, c, d, e, f] →
          parse_matrix s = .ok (a, b, c, d, e, f)))) := by
  constructor
  · intro h
    unfold parse_matrix
    rw [h]
  · intro g hg
    refine ⟨?_, ?_⟩
    · intro h
      unfold parse_matrix
      rw [hg]
      simp only [h]
    · intro ps hps
      refine ⟨?_, ?_⟩
      · intro hlen
        unfold parse_matrix
        rw [hg]
        simp only [hps]
        rcases ps with _ | ⟨a, _ | ⟨b, _ | ⟨c, _ | ⟨d, _ | ⟨e, _ | ⟨f, _ | ⟨x, t⟩⟩⟩⟩⟩⟩⟩ <;>
          first
          | rfl
          | simp at hlen
      · intro a b c d e f hval
        subst hval
        unfold parse_matrix
        rw [hg]
        simp only [hps]

/-- Witness for the amended C3: six numeric parts are returned as parsed,
and a string with no `matrix(...)` token yields the identity. -/
theorem c3_parse_matrix_witness :
    parse_matrix "matrix(1 2 3 4 5 6)" = .ok (1, 2, 3, 4, 5, 6) ∧
      parse_matrix "translate(10,20)" = .ok (1, 0, 0, 1, 0, 0) := by
  constructor
  · exact (((c3_parse_matrix_cases "matrix(1 2 3 4 5 6)").2
      "1 2 3 4 5 6".toList rfl).2 [1, 2, 3, 4, 5, 6] rfl).2 1 2 3 4 5 6 rfl
  · exact (c3_parse_matrix_cases "translate(10,20)").1 rfl

/-- C4: on every ancestor chain, `find_transform_for_image` returns the
parsed transform of the nearest ancestor that is a grouping (`}g`-tagged)
element carrying a nonempty `transform` attribute containing `matrix` —
consulting only that single ancestor (the `find?`-based spec reading) —
and the identity `(1, 0, 0, 1, 0, 0)` when no such ancestor exists. -/
theorem c4_resolver_nearest_ancestor (chain : List Element) :
    find_transform_for_image chain = resolveForImageSpec chain := by
  induction chain with
  | nil => rfl
  | cons p rest ih =>
    by_cases h1 : strEnds p.tag "\x7dg"
    · by_cases h2 : attrD p "transform" "" ≠ "" ∧
        listHasSub "matrix".toList (attrD p "transform" "").toList
      · have hq : qualifiesG p = true := by
          unfold qualifiesG
          rw [h1, Bool.true_and, Bool.and_eq_true]
          exact ⟨decide_eq_true h2.1, h2.2⟩
        simp only [find_transform_for_image, resolveForImageSpec,
          List.find?_cons_of_pos _ hq, if_pos h1, if_pos h2]
      · have hq : ¬(qualifiesG p = true) := by
          simp only [qualifiesG, Bool.and_eq_true, decide_eq_true_eq]
          rintro ⟨-, h2a, h2b⟩
          exact h2 ⟨h2a, h2b⟩
        simp only [find_transform_for_image, resolveForImageSpec,
          List.find?_cons_of_neg _ hq, if_pos h1, if_neg h2]
        exact ih
    · have hq : ¬(qualifiesG p = true) := by
        simp [qualifiesG, h1]
      simp only [find_transform_for_image, resolveForImageSpec,
        List.find?_cons_of_neg _ hq, if_neg h1]
      exact ih

theorem nonNumAttr_default {o : Option String} (h : nonNumAttr o = true) :
    floatAttrDefault o = none := by
  cases o with
  | none => simp [nonNumAttr] at h
  | some s =>
    simp only [nonNumAttr, Option.isNone_iff_eq_none] at h
    simp [floatAttrDefault, h]

theorem nonNumAttr_req {o : Option String} (h : nonNumAttr o = true) :
    floatAttrReq o = none := by
  cases o with
  | none => simp [nonNumAttr] at h
  | some s =>
    simp only [nonNumAttr, Option.isNone_iff_eq_none] at h
    simp [floatAttrReq, h]

theorem rectMalformed_attr_none {r : RectEl} (h : rectMalformed r = true) :
    floatAttrDefault r.xA = none ∨ floatAttrDefault r.yA = none ∨
      floatAttrReq r.wA = none ∨ floatAttrReq r.hA = none := by
  unfold rectMalformed at h
  rw [Bool.or_eq_true, Bool.or_eq_true, Bool.or_eq_true, Bool.or_eq_true,
    Bool.or_eq_true] at h
  rcases h with ((((h | h) | h) | h) | h) | h
  · right; right; left
    rw [Option.isNone_iff_eq_none] at h
    simp [floatAttrReq, h]
  · right; right; right
    rw [Option.isNone_iff_eq_none] at h
    simp [floatAttrReq, h]
  · exact Or.inl (nonNumAttr_default h)
  · exact Or.inr (Or.inl (nonNumAttr_default h))
  · exact Or.inr (Or.inr (Or.inl (nonNumAttr_req h)))
  · exact Or.inr (Or.inr (Or.inr (nonNumAttr_req h)))

theorem clipDefEntry_malformed (i : Option String) (r : RectEl)
    (h : rectMalformed r = true) :
    clipDefEntry { idA := i, rect := some r } = none := by
  cases i with
  | none => rfl
  | some iv =>
    simp only [clipDefEntry]
    by_cases hiv : iv = ""
    · rw [if_pos hiv]
    · rw [if_neg hiv]
      rcases hx : floatAttrDefault r.xA with _ | xv <;>
        rcases hy : floatAttrDefault r.yA with _ | yv <;>
          rcases hw : floatAttrReq r.wA with _ | wv <;>
            rcases hh : floatAttrReq r.hA with _ | hv <;>
              try rfl
      rcases rectMalformed_attr_none h with ha | ha | ha | ha
      · exact Option.noConfusion (hx.symm.trans ha)
      · exact Option.noConfusion (hy.symm.trans ha)
      · exact Option.noConfusion (hw.symm.trans ha)
      · exact Option.noConfusion (hh.symm.trans ha)

/-- C6: a clip-path definition whose rectangle lacks `width`/`height` or
has a non-numeric `x`/`y`/`width`/`height` is skipped without raising
(registry construction is a total function) and without affecting which
other definitions are registered; and `x`/`y` default to `0` when
absent. -/
theorem c6_registry_skips_malformed :
    (∀ (l1 l2 : List ClipDef) (i : Option String) (r : RectEl),
      rectMalformed r = true →
      buildRegistry (l1 ++ { idA := i, rect := some r } :: l2) =
        buildRegistry (l1 ++ l2)) ∧
    (∀ (i ws hs : String) (w h : ℚ), i ≠ "" → pyFloat ws = some w →
      pyFloat hs = some h →
      clipDefEntry ⟨some i, some ⟨none, none, some ws, some hs, none⟩⟩ =
        some (i, (0, 0, w, h))) := by
  constructor
  · intro l1 l2 i r hmal
    unfold buildRegistry
    rw [List.foldl_append, List.foldl_append, List.foldl_cons,
      clipDefEntry_malformed i r hmal]
  · intro i ws hs w h hi hw hh
    simp only [clipDefEntry, floatAttrDefault, floatAttrReq]
    rw [if_neg hi, hw, hh]
    have htr : parse_transform "" = .ok (0, 0) := rfl
    simp only [Option.getD_none, htr, zero_add]

/-- Witness for C6: a definition with missing `x` attribute drops nothing
else from the registry, and `x`/`y` default to zero. -/
theorem c6_registry_witness :
    buildRegistry
        [⟨some "good", some ⟨some "1", some "2", some "3", some "4", none⟩⟩,
          ⟨some "bad", some ⟨none, none, none, some "9", none⟩⟩] =
      buildRegistry
        [⟨some "good", some ⟨some "1", some "2", some "3", some "4", none⟩⟩] ∧
    clipDefEntry ⟨some "r1", some ⟨none, none, some "7", some "8", none⟩⟩ =
      some ("r1", (0, 0, 7, 8)) := by
  constructor
  · exact c6_registry_skips_malformed.1
      [⟨some "good", some ⟨some "1", some "2", some "3", some "4", none⟩⟩] []
      (some "bad") ⟨none, none, none, some "9", none⟩ rfl
  · exact c6_registry_skips_malformed.2 "r1" "7" "8" 7 8 (by decide) rfl rfl

/-- C5 fails as stated: an element whose clip rectangle is resolvable and
whose ancestor transform resolves to a zero-scale matrix, but whose image
carries a non-numeric `x` attribute, lets `ValueError` escape the
per-region boundary (`raised`), leaving the counter unadvanced — the
exception fires before the zero-scale division would be reached. -/
theorem c5_zero_scale_counterexample :
    find_transform_for_image badAttrEl.ancestors = .ok (0, 0, 0, 0, 0, 0) ∧
      stepClipEl [("r0", (0, 0, 5, 5))] (fun _ => some (4, 4)) ⟨0, [], []⟩
        badAttrEl = .raised ⟨0, [0], []⟩ := ⟨rfl, rfl⟩

/-- C5 amended: for a processed clip-annotated element whose clip
rectangle resolves, whose image is present with a nonempty reference and
*numeric* placement attributes, and whose resolved ancestor transform has
`a = 0` or `d = 0`, the region's crop is skipped (crop list unchanged, the
caught `ZeroDivisionError` never escapes), while the mask is still emitted
and the region counter advances. -/
theorem c5_zero_scale_skips_crop
    (reg : List (String × Rect4)) (raster : String → Option (ℕ × ℕ))
    (st : LoopState) (el : ClipEl) (cid : List Char)
    (clip : Rect4) (img : ImgEl) (attrs : Rect4) (a b c d tx ty : ℚ)
    (h1 : urlIdToken el.clipAttr = some cid)
    (h2 : regLookup reg (String.mk cid) = some clip)
    (h3 : el.image = some img)
    (h4 : img.href ≠ "")
    (h5 : imgAttrRect img = some attrs)
    (h6 : find_transform_for_image el.ancestors = .ok (a, b, c, d, tx, ty))
    (h7 : a = 0 ∨ d = 0) :
    stepClipEl reg raster st el =
      .ok ⟨st.maskCount + 1, st.masks ++ [st.maskCount], st.crops⟩ := by
  have hbox : ∀ W H : ℕ,
      precise_crop_box clip (a, b, c, d, tx, ty) attrs W H = none := by
    intro W H
    obtain ⟨cx, cy, cw, ch⟩ := clip
    obtain ⟨ix, iy, iw, ih⟩ := attrs
    simp only [precise_crop_box]
    rw [if_pos]
    rcases h7 with h | h
    · exact Or.inl h
    · exact Or.inr (Or.inl h)
  have hcrop : precise_crop_image raster img.href clip (a, b, c, d, tx, ty)
      attrs = false := by
    unfold precise_crop_image
    cases hr : raster img.href with
    | none => rfl
    | some wh =>
      obtain ⟨w, h⟩ := wh
      simp only [hbox, Option.isSome_none]
  unfold stepClipEl
  rw [h1]
  simp only [h2, h3, if_neg h4, h5, h6, hcrop, Bool.false_eq_true, if_false]

/-- Witness for the amended C5: the zero-scale element's step emits mask 0,
advances the counter, and produces no crop. -/
theorem c5_zero_scale_witness :
    stepClipEl [("r0", (0, 0, 5, 5))] (fun _ => some (4, 4)) ⟨0, [], []⟩
      zeroScaleEl = .ok ⟨1, [0], []⟩ :=
  c5_zero_scale_skips_crop _ _ _ _ "r0".toList (0, 0, 5, 5) goodImg
    (1, 1, 2, 2) 0 0 0 0 0 0 rfl rfl rfl (by decide) rfl rfl (Or.inl rfl)

/-- C9 fails as stated: the request model accepts `"webp"` unchanged (no
validator rejects it) and it reaches the crop step's encoding selection,
which silently saves it as `jpeg` instead of rejecting it before the
core. -/
theorem c9_format_counterexample :
    crop_svg_output_format ⟨"http://example.com/view.svg", "webp"⟩ = "webp" ∧
      file_ext "webp" = "jpeg" := ⟨rfl, rfl⟩

/-- C9 amended: only two raster encodings can ever be produced (`png` and
`jpeg`), with `png` chosen exactly for the request value `"png"`; but any
other request value is not rejected — it is passed through to the core
unchanged and encoded as `jpeg`. -/
theorem c9_format_two_encodings (r : SVGProcessRequest) :
    crop_svg_output_format r = r.output_format ∧
      (file_ext r.output_format = "png" ∨ file_ext r.output_format = "jpeg") ∧
      (file_ext r.output_format = "png" ↔ r.output_format = "png") := by
  refine ⟨rfl, ?_, ?_⟩
  · unfold file_ext
    split_ifs
    · exact Or.inl rfl
    · exact Or.inr rfl
  · unfold file_ext
    split_ifs with hf
    · simp [hf]
    · constructor
      · intro h
        exact absurd h (by decide)
      · intro h
        exact absurd h hf

/-- Witness for the amended C9 at the request value `"gif"`. -/
theorem c9_format_witness :
    crop_svg_output_format ⟨"http://example.com/view.svg", "gif"⟩ = "gif" ∧
      (file_ext "gif" = "png" ∨ file_ext "gif" = "jpeg") ∧
      (file_ext "gif" = "png" ↔ "gif" = "png") :=
  c9_format_two_encodings ⟨"http://example.com/view.svg", "gif"⟩

/-- A clip element on which the loop body does not raise always completes
its iteration normally. -/
theorem stepClipEl_no_raise (reg : List (String × Rect4))
    (raster : String → Option (ℕ × ℕ)) (st : LoopState) (el : ClipEl)
    (h : elStepRaises reg el = false) :
    ∃ st', stepClipEl reg raster st el = .ok st' := by
  unfold elStepRaises at h
  unfold stepClipEl
  cases h1 : urlIdToken el.clipAttr with
  | none =>
    refine ⟨st, ?_⟩
    simp only [h1]
  | some cid =>
    simp only [h1] at h
    cases h2 : regLookup reg (String.mk cid) with
    | none =>
      refine ⟨st, ?_⟩
      simp only [h2]
    | some clip =>
      simp only [h2] at h
      cases h3 : el.image with
      | none =>
        refine ⟨⟨st.maskCount + 1, st.masks ++ [st.maskCount], st.crops⟩, ?_⟩
        simp only [h1, h2, h3]
      | some img =>
        simp only [h3] at h
        by_cases h4 : img.href = ""
        · refine ⟨⟨st.maskCount + 1, st.masks ++ [st.maskCount], st.crops⟩, ?_⟩
          simp only [h1, h2, h3, if_pos h4]
        · rw [if_neg h4] at h
          rw [Bool.or_eq_false_iff] at h
          obtain ⟨ha, hb⟩ := h
          cases h5 : imgAttrRect img with
          | none =>
            rw [h5] at ha
            simp at ha
          | some attrs =>
            cases h6 : find_transform_for_image el.ancestors with
            | error e =>
              rw [h6] at hb
              simp at hb
            | ok m =>
              cases h7 : precise_crop_image raster img.href clip m attrs with
              | true =>
                refine ⟨⟨st.maskCount + 1, st.masks ++ [st.maskCount],
                  st.crops ++ [st.maskCount]⟩, ?_⟩
                simp only [h1, h2, h3, if_neg h4, h5, h6, h7, if_true]
              | false =>
                refine ⟨⟨st.maskCount + 1, st.masks ++ [st.maskCount],
                  st.crops⟩, ?_⟩
                simp only [h1, h2, h3, if_neg h4, h5, h6, h7,
                  Bool.false_eq_true, if_false]

/-- The whole region loop completes when no element raises. -/
theorem runLoop_no_raise (reg : List (String × Rect4))
    (raster : String → Option (ℕ × ℕ)) (els : List ClipEl)
    (h : ∀ el ∈ els, elStepRaises reg el = false) :
    ∀ st, ∃ st', runLoop reg raster els st = .ok st' := by
  induction els with
  | nil => exact fun st => ⟨st, rfl⟩
  | cons e es ih =>
    intro st
    obtain ⟨st1, hst1⟩ := stepClipEl_no_raise reg raster st e (h e (by simp))
    obtain ⟨st2, hst2⟩ := ih (fun el hel => h el (by simp [hel])) st1
    refine ⟨st2, ?_⟩
    simp only [runLoop, hst1]
    exact hst2

/-- C8 amended: assuming the excluded I/O succeeds (image URLs present and
all downloads succeed) and every clip-annotated element parses cleanly
(numeric image attributes, parseable consulted transforms, parseable
canvas dimensions), no per-region failure aborts the run, and the run
fails exactly for an unparseable document or zero processed regions — in
particular a document with zero clip-annotated elements yields the
run-level failure `"No regions processed"`, not an empty success.  (The
unamended claim is refuted by the counterexample: a region with a
non-numeric image attribute raises an uncaught exception that aborts the
whole run even though the document parses.) -/
theorem c8_run_failure_characterisation (doc : Option Document) (dlOk : String → Bool)
    (raster : String → Option (ℕ × ℕ))
    (hdl : ∀ u, dlOk u = true)
    (himgs : ∀ d, doc = some d → extract_image_urls (some d) ≠ [])
    (hclean : ∀ d, doc = some d → docClean d = true) :
    (doc = none →
      process_svg_async true doc dlOk raster = .err "No images found in SVG") ∧
    (∀ d, doc = some d → ∃ st,
      extract_masks_and_crop_images raster d = .ok st ∧
      (st.maskCount = 0 →
        process_svg_async true doc dlOk raster = .err "No regions processed") ∧
      (st.maskCount ≠ 0 →
        process_svg_async true doc dlOk raster =
          .ok st.maskCount (extract_image_urls (some d)).length) ∧
      (d.clipEls = [] →
        process_svg_async true doc dlOk raster =
          .err "No regions processed")) := by
  constructor
  · intro h
    subst h
    rfl
  · intro d hd
    subst hd
    have hcd := hclean d rfl
    rw [docClean, Bool.and_eq_true] at hcd
    obtain ⟨hdims, hall⟩ := hcd
    obtain ⟨v, hv⟩ := Option.isSome_iff_exists.mp hdims
    have hallel : ∀ el ∈ d.clipEls,
        elStepRaises (buildRegistry d.clipDefs) el = false := by
      intro el hel
      have := List.all_eq_true.mp hall el hel
      simpa using this
    have hextract : ∀ st0, ∃ st',
        runLoop (buildRegistry d.clipDefs) raster d.clipEls st0 = .ok st' :=
      runLoop_no_raise _ raster _ hallel
    obtain ⟨st, hst⟩ := hextract ⟨0, [], []⟩
    have hext : extract_masks_and_crop_images raster d = .ok st := by
      unfold extract_masks_and_crop_images
      rw [hv]
      exact hst
    have hurls := himgs d rfl
    have hfilter : (extract_image_urls (some d)).filter dlOk =
        extract_image_urls (some d) :=
      List.filter_eq_self.mpr fun u _ => hdl u
    have hproc : process_svg_async true (some d) dlOk raster =
        (if (extract_image_urls (some d)).isEmpty then
          RunResult.err "No images found in SVG"
        else if ((extract_image_urls (some d)).filter dlOk).length = 0 then
          RunResult.err "Failed to download any images"
        else
          match extract_masks_and_crop_images raster d with
          | .raised _ => RunResult.err "unhandled exception"
          | .ok st =>
            if st.maskCount = 0 then RunResult.err "No regions processed"
            else RunResult.ok st.maskCount
              ((extract_image_urls (some d)).filter dlOk).length) := by
      rfl
    have hempty : (extract_image_urls (some d)).isEmpty = false := by
      cases hu : extract_image_urls (some d) with
      | nil => exact absurd hu hurls
      | cons u us => rfl
    have hlen : ¬(((extract_image_urls (some d)).filter dlOk).length = 0) := by
      rw [hfilter]
      intro hzero
      exact hurls (List.eq_nil_of_length_eq_zero hzero)
    refine ⟨st, hext, ?_, ?_, ?_⟩
    · intro hmc
      rw [hproc, hempty, if_neg hlen]
      simp only [Bool.false_eq_true, if_false, hext, if_pos hmc]
    · intro hmc
      rw [hproc, hempty, if_neg hlen]
      simp only [Bool.false_eq_true, if_false, hext, if_neg hmc, hfilter]
    · intro hemp
      have hext0 : extract_masks_and_crop_images raster d = .ok ⟨0, [], []⟩ := by
        unfold extract_masks_and_crop_images
        rw [hv, hemp]
        rfl
      have hst0 : st = ⟨0, [], []⟩ := by
        have := hext.symm.trans hext0
        exact StepResult.ok.inj this
      rw [hproc, hempty, if_neg hlen]
      simp only [Bool.false_eq_true, if_false, hext, hst0]
      exact if_pos trivial

/-- C8 fails as stated: in `demoDoc` (parseable, one mask already
emitted) the first clip element's non-numeric image attribute raises,
aborting the loop before the second, valid element, and the run surfaces a
failure that is neither an unparseable document nor a zero-region run. -/
theorem c8_per_region_abort_counterexample :
    extract_masks_and_crop_images (fun _ => some (4, 4)) demoDoc =
        .raised ⟨0, [0], []⟩ ∧
      process_svg_async true (some demoDoc) (fun _ => true)
        (fun _ => some (4, 4)) = .err "unhandled exception" := ⟨rfl, rfl⟩

/-- Witness for the amended C8: a clean one-region document succeeds with
one region, and a parseable document with no clip-annotated elements fails
with `"No regions processed"`. -/
theorem c8_run_witness :
    process_svg_async true (some cleanDoc) (fun _ => true)
        (fun _ => some (4, 4)) = .ok 1 1 ∧
      process_svg_async true (some emptyRegionsDoc) (fun _ => true)
        (fun _ => some (4, 4)) = .err "No regions processed" := by
  constructor
  · obtain ⟨st, hst, hzero, hnonzero, hemp⟩ :=
      (c8_run_failure_characterisation (some cleanDoc) (fun _ => true) (fun _ => some (4, 4))
        (fun u => rfl) (fun d hd => by cases hd; decide)
        (fun d hd => by cases hd; decide)).2 cleanDoc rfl
    have hst2 : st = ⟨1, [0], [0]⟩ :=
      StepResult.ok.inj (hst.symm.trans (rfl :
        extract_masks_and_crop_images (fun _ => some (4, 4)) cleanDoc =
          .ok ⟨1, [0], [0]⟩))
    have hres := hnonzero (by rw [hst2]; decide)
    rw [hst2] at hres
    exact hres.trans rfl
  · obtain ⟨st, hst, hzero, hnonzero, hemp⟩ :=
      (c8_run_failure_characterisation (some emptyRegionsDoc) (fun _ => true) (fun _ => some (4, 4))
        (fun u => rfl) (fun d hd => by cases hd; decide)
        (fun d hd => by cases hd; decide)).2 emptyRegionsDoc rfl
    exact hemp rfl


end SvgCrop
